import Mathlib

/-
Verification of the PlexiPDF engine wrapper (src/pdf_engine.py) against its
specification.  The wrapper delegates low-level PDF semantics (page loading,
widget value setters, appearance regeneration, saving) to an external library;
those primitives are modelled from the specification and marked as such, while
every function of the wrapper itself (page_count, render_page, _iter_widgets,
list_form_fields, update_form_field, insert_text, save) is translated
faithfully from the Python source.
-/

namespace PlexiPDF

/-- Error taxonomy of the specification (section 7): bounds failures on page
access, ValidationError for bad field values, IOError on save failure. -/
inductive PdfError where
  | boundsError
  | validationError
  | ioError
  deriving DecidableEq, Repr

/-- Field types of the data model (section 3): text, checkbox, radio, choice,
signature; plus button/unknown codes the library can report. -/
inductive FieldType where
  | text
  | checkbox
  | radio
  | choice
  | signature
  | button
  | unknown
  deriving DecidableEq, Repr

/-- A widget annotation as seen through the library objects the wrapper
touches: a field name (empty string for an un-named widget), a current value,
a field type, the export values admissible for checkbox/radio fields, a
hidden flag, and the appearance stream content.  The wrapper reads
field_name, field_value and field_type; hidden and export_values exist on the
object but are never consulted by the wrapper code. -/
structure Widget where
  field_name : String
  field_value : String
  field_type : FieldType
  export_values : List String
  hidden : Bool
  appearance : String
  deriving DecidableEq, Repr

/-- Modelled from the spec: the appearance stream regenerated for a value, so
that the rendered glyph reflects that value (section 4.5).  Only its
dependence on the value matters to the claims. -/
def renderAppearance (v : String) : String := "AP " ++ v

/-- Modelled from the spec: assigning w.field_value = v through the library
setter.  Checkbox/radio fields admit only their finite set of export-value
strings; an unrecognized value is a ValidationError and the prior value is
retained (sections 4.5 and 7).  Text and other fields accept any string. -/
def Widget.setValue (w : Widget) (v : String) : Except PdfError Widget :=
  match w.field_type with
  | .checkbox => if v ∈ w.export_values then .ok { w with field_value := v } else .error .validationError
  | .radio => if v ∈ w.export_values then .ok { w with field_value := v } else .error .validationError
  | _ => .ok { w with field_value := v }

/-- Modelled from the spec: w.update() regenerates the appearance stream of
the widget so it reflects the current value (section 4.5). -/
def Widget.update (w : Widget) : Widget :=
  { w with appearance := renderAppearance w.field_value }

/-- A content stream operator: either pre-existing content or a text-showing
block inserted at (x, y) with a font size (section 4.3). -/
inductive ContentOp where
  | raw (s : String)
  | text (x y : Rat) (s : String) (fontSize : Rat)
  deriving DecidableEq, Repr

/-- A page: its widget annotations in annotation order and its content
stream. -/
structure Page where
  widgets : List Widget
  content : List ContentOp
  deriving DecidableEq, Repr

/-- A document: its pages in page order.  Mirrors the fitz document held in
PDFEngine.doc. -/
structure Doc where
  pages : List Page
  deriving DecidableEq, Repr

/-- PDFEngine.page_count: len(self.doc). -/
def page_count (d : Doc) : Nat := d.pages.length

/-- Modelled from the spec: doc.load_page(n) fails with a bounds error for an
out-of-range index; render_page(doc, -1, ...) and
render_page(doc, page_count(doc), ...) both fail with a bounds error
(section 8). -/
def load_page (d : Doc) (n : Int) : Except PdfError Page :=
  if 0 ≤ n then
    match d.pages[n.toNat]? with
    | some p => .ok p
    | none => .error .boundsError
  else
    .error .boundsError

/-- Modelled from the spec: a rendered pixel buffer is a deterministic
function of the page and the zoom factor (section 4.4). -/
structure Pixmap where
  page : Page
  zoom : Rat
  deriving DecidableEq, Repr

/-- PDFEngine.render_page: load the page, then produce its pixmap at the
given zoom. -/
def render_page (d : Doc) (page_number : Int) (zoom : Rat) : Except PdfError Pixmap :=
  match load_page d page_number with
  | .ok p => .ok { page := p, zoom := zoom }
  | .error e => .error e

/-- PDFEngine._iter_widgets: for pno in range(len(doc)) load each page and
yield its widgets; page order ascending, annotation order within a page. -/
def _iter_widgets (d : Doc) : List Widget :=
  d.pages.flatMap Page.widgets

/-- One entry of the list returned by list_form_fields:
the dict with keys name, value, type. -/
structure FieldRecord where
  name : String
  value : String
  type : FieldType
  deriving DecidableEq, Repr

/-- PDFEngine.list_form_fields: walk every widget, skip un-named ones
(Python truthiness: skip when field_name is the empty string), and append a
name/value/type record for the rest. -/
def list_form_fields (d : Doc) : List FieldRecord :=
  (_iter_widgets d).foldl
    (fun fields w =>
      if w.field_name ≠ "" then
        fields ++ [{ name := w.field_name, value := w.field_value, type := w.field_type }]
      else
        fields)
    []

/-- The loop body of PDFEngine.update_form_field on a list of widgets: find
the first widget with field_name == name, assign its value through the
library setter, call its update(), and stop.  Returns the new widget list
and whether a match was consumed; a ValidationError from the setter
propagates. -/
def updateFirstInList (name value : String) : List Widget → Except PdfError (List Widget × Bool)
  | [] => .ok ([], false)
  | w :: ws =>
    if w.field_name == name then
      match w.setValue value with
      | .error e => .error e
      | .ok w1 => .ok (Widget.update w1 :: ws, true)
    else
      match updateFirstInList name value ws with
      | .error e => .error e
      | .ok (ws1, b) => .ok (w :: ws1, b)

/-- The same loop lifted over the pages in ascending order: the first page
containing a match is rewritten, later pages are not visited for update. -/
def updateFirstInPages (name value : String) : List Page → Except PdfError (List Page × Bool)
  | [] => .ok ([], false)
  | p :: ps =>
    match updateFirstInList name value p.widgets with
    | .error e => .error e
    | .ok (ws1, true) => .ok ({ p with widgets := ws1 } :: ps, true)
    | .ok (_, false) =>
      match updateFirstInPages name value ps with
      | .error e => .error e
      | .ok (ps1, b) => .ok (p :: ps1, b)

/-- PDFEngine.update_form_field(name, value): set a new value for the first
widget matching name.  The Python function returns None on every
non-exception path (both after an update and when no widget matches); an
exception raised by the setter leaves the document unchanged and
propagates.  The pair holds the document state after the call and the
outcome: .ok () is the Python None return, .error e a raised exception. -/
def update_form_field (d : Doc) (name value : String) : Doc × Except PdfError Unit :=
  match updateFirstInPages name value d.pages with
  | .ok (ps, _) => ({ pages := ps }, .ok ())
  | .error e => (d, .error e)

/-- PDFEngine.insert_text: load the page (bounds-checked as load_page) and
append a text-showing operator block at (x, y) to its content stream
(library page.insert_text modelled from the spec, section 4.3). -/
def insert_text (d : Doc) (page_number : Int) (x y : Rat) (text : String) (font_size : Rat) :
    Doc × Except PdfError Unit :=
  if 0 ≤ page_number then
    match d.pages[page_number.toNat]? with
    | some p =>
      ({ pages := d.pages.set page_number.toNat
            { p with content := p.content ++ [ContentOp.text x y text font_size] } },
       .ok ())
    | none => (d, .error .boundsError)
  else
    (d, .error .boundsError)

/-- Modelled from the spec: the filesystem as a map from paths to the parsed
content of the file stored there (a valid saved file re-opens to its
document). -/
def FileSys : Type := String → Option Doc

/-- Modelled from the spec: doc.save(path) writes to a temporary file and
atomically renames it; on write failure it fails with IOError and leaves no
partially written file (section 4.6).  The oracle wOk stands for the
filesystem accepting or rejecting the write.  An incremental save appended
to the prior bytes still parses to the current document (section 8). -/
def save (wOk : Bool) (fs : FileSys) (d : Doc) (path : String) (incremental : Bool) :
    FileSys × Except PdfError Unit :=
  if wOk then
    (fun q => if q = path then some d else fs q, .ok ())
  else
    (fs, .error .ioError)

/-- The lookup as the specification words it (sections 3 and 4.5): the index
of the first widget in document order whose field name is non-empty, equals
the given name, and which is not hidden. -/
def specFirstMatch (d : Doc) (name : String) : Option Nat :=
  (_iter_widgets d).findIdx? (fun w => w.field_name == name && w.field_name != "" && !w.hidden)

/-- Whether some widget of the document has the given field name. -/
def hasFieldNamed (d : Doc) (name : String) : Bool :=
  (_iter_widgets d).any (fun w => w.field_name == name)

/-! ### Characterization lemmas for the update loop -/

lemma updateFirstInList_not_found {n v : String} {ws : List Widget}
    (h : ∀ w ∈ ws, (w.field_name == n) = false) :
    updateFirstInList n v ws = .ok (ws, false) := by
  induction ws with
  | nil => rfl
  | cons w ws ih =>
    have hw := h w (List.mem_cons_self w ws)
    simp only [updateFirstInList, hw, Bool.false_eq_true, if_false]
    rw [ih (fun x hx => h x (List.mem_cons_of_mem w hx))]

lemma updateFirstInList_false_id {n v : String} {ws ws1 : List Widget}
    (h : updateFirstInList n v ws = .ok (ws1, false)) :
    ws1 = ws ∧ ∀ w ∈ ws, (w.field_name == n) = false := by
  induction ws generalizing ws1 with
  | nil =>
    simp only [updateFirstInList] at h
    injection h with h
    injection h with h1 h2
    exact ⟨h1.symm, by simp⟩
  | cons w ws ih =>
    by_cases hw : (w.field_name == n) = true
    · exfalso
      simp only [updateFirstInList, hw, if_true] at h
      cases hs : w.setValue v with
      | error e => rw [hs] at h; exact Except.noConfusion h
      | ok w1 =>
        rw [hs] at h
        injection h with h
        injection h with h1 h2
        exact Bool.noConfusion h2
    · simp only [updateFirstInList, hw, if_false] at h
      cases hr : updateFirstInList n v ws with
      | error e => rw [hr] at h; exact Except.noConfusion h
      | ok r =>
        obtain ⟨ws2, b⟩ := r
        rw [hr] at h
        injection h with h
        injection h with h1 h2
        cases b with
        | true => exact Bool.noConfusion h2
        | false =>
          obtain ⟨hid, hall⟩ := ih hr
          refine ⟨?_, ?_⟩
          · rw [← h1, hid]
          · intro x hx
            rcases List.mem_cons.mp hx with hx | hx
            · rw [hx]; exact Bool.eq_false_iff.mpr hw
            · exact hall x hx

lemma updateFirstInList_found {n v : String} {ws : List Widget} {i : Nat} {w : Widget}
    (hidx : ws.findIdx? (fun x => x.field_name == n) = some i)
    (hget : ws[i]? = some w) :
    updateFirstInList n v ws =
      match w.setValue v with
      | .error e => .error e
      | .ok w1 => .ok (ws.set i (Widget.update w1), true) := by
  induction ws generalizing i with
  | nil => simp [List.findIdx?] at hidx
  | cons a l ih =>
    rw [List.findIdx?_cons] at hidx
    by_cases ha : (a.field_name == n) = true
    · rw [if_pos ha] at hidx
      injection hidx with hidx
      subst hidx
      simp only [List.getElem?_cons_zero, Option.some.injEq] at hget
      subst hget
      simp only [updateFirstInList, ha, if_true, List.set_cons_zero]
    · rw [if_neg ha, List.findIdx?_succ] at hidx
      cases hj : l.findIdx? (fun x => x.field_name == n) with
      | none => rw [hj] at hidx; exact Option.noConfusion hidx
      | some j =>
        rw [hj] at hidx
        simp only [Option.map_some'] at hidx
        injection hidx with hidx
        subst hidx
        rw [List.getElem?_cons_succ] at hget
        simp only [updateFirstInList, ha, Bool.false_eq_true, if_false]
        rw [ih hj hget]
        cases w.setValue v with
        | error e => rfl
        | ok w1 => simp [List.set_cons_succ]

lemma updateFirstInList_append (n v : String) (ws1 ws2 : List Widget) :
    updateFirstInList n v (ws1 ++ ws2) =
      match updateFirstInList n v ws1 with
      | .error e => .error e
      | .ok (ws1a, true) => .ok (ws1a ++ ws2, true)
      | .ok (ws1a, false) =>
        match updateFirstInList n v ws2 with
        | .error e => .error e
        | .ok (ws2a, b) => .ok (ws1a ++ ws2a, b) := by
  induction ws1 with
  | nil =>
    simp only [List.nil_append, updateFirstInList]
    cases hr : updateFirstInList n v ws2 with
    | error e => rfl
    | ok r => obtain ⟨ws2a, b⟩ := r; rfl
  | cons a l ih =>
    by_cases ha : (a.field_name == n) = true
    · simp only [List.cons_append, updateFirstInList, ha, if_true]
      cases a.setValue v with
      | error e => rfl
      | ok w1 => simp [List.cons_append]
    · simp only [List.cons_append, updateFirstInList, ha, Bool.false_eq_true, if_false]
      rw [List.append_eq, ih]
      cases hr : updateFirstInList n v l with
      | error e => rfl
      | ok r =>
        obtain ⟨la, b⟩ := r
        cases b with
        | true => rfl
        | false =>
          cases hr2 : updateFirstInList n v ws2 with
          | error e => rfl
          | ok r2 => obtain ⟨ws2a, b2⟩ := r2; rfl

lemma updateFirstInPages_flat (n v : String) (ps : List Page) :
    (updateFirstInPages n v ps).map (fun x => (x.1.flatMap Page.widgets, x.2)) =
      updateFirstInList n v (ps.flatMap Page.widgets) := by
  induction ps with
  | nil => rfl
  | cons p ps ih =>
    simp only [updateFirstInPages, List.flatMap_cons, updateFirstInList_append]
    cases h1 : updateFirstInList n v p.widgets with
    | error e => rfl
    | ok r =>
      obtain ⟨ws1, b⟩ := r
      cases b with
      | true => simp [List.flatMap_cons, Except.map]
      | false =>
        obtain ⟨hid, -⟩ := updateFirstInList_false_id h1
        subst hid
        rw [← ih]
        cases h2 : updateFirstInPages n v ps with
        | error e => rfl
        | ok r2 =>
          obtain ⟨ps1, b2⟩ := r2
          simp [List.flatMap_cons, Except.map]

lemma updateFirstInPages_not_found {n v : String} {ps : List Page}
    (h : ∀ w ∈ ps.flatMap Page.widgets, (w.field_name == n) = false) :
    updateFirstInPages n v ps = .ok (ps, false) := by
  induction ps with
  | nil => rfl
  | cons p ps ih =>
    have hp : ∀ w ∈ p.widgets, (w.field_name == n) = false := by
      intro w hw
      exact h w (by rw [List.flatMap_cons]; exact List.mem_append_left _ hw)
    have hrest : ∀ w ∈ ps.flatMap Page.widgets, (w.field_name == n) = false := by
      intro w hw
      exact h w (by rw [List.flatMap_cons]; exact List.mem_append_right _ hw)
    simp only [updateFirstInPages, updateFirstInList_not_found hp, ih hrest]

lemma updateFirstInPages_structure {n v : String} {ps ps1 : List Page} {b : Bool}
    (h : updateFirstInPages n v ps = .ok (ps1, b)) :
    ps1.length = ps.length ∧ ∀ j : Nat, (ps1[j]?).map Page.content = (ps[j]?).map Page.content := by
  induction ps generalizing ps1 b with
  | nil =>
    simp only [updateFirstInPages] at h
    injection h with h
    injection h with h1 h2
    subst h1
    exact ⟨rfl, fun j => rfl⟩
  | cons p ps ih =>
    simp only [updateFirstInPages] at h
    cases h1 : updateFirstInList n v p.widgets with
    | error e => rw [h1] at h; exact Except.noConfusion h
    | ok r =>
      obtain ⟨ws1, bb⟩ := r
      rw [h1] at h
      cases bb with
      | true =>
        injection h with h
        injection h with hps hb
        subst hps
        refine ⟨by simp, fun j => ?_⟩
        cases j with
        | zero => simp
        | succ j => simp
      | false =>
        cases h2 : updateFirstInPages n v ps with
        | error e => rw [h2] at h; exact Except.noConfusion h
        | ok r2 =>
          obtain ⟨ps2, b2⟩ := r2
          rw [h2] at h
          injection h with h
          injection h with hps hb
          subst hps
          obtain ⟨hlen, hcont⟩ := ih h2
          refine ⟨by simp [hlen], fun j => ?_⟩
          cases j with
          | zero => simp
          | succ j => simpa using hcont j

lemma setValue_fields {w w1 : Widget} {v : String} (h : w.setValue v = .ok w1) :
    w1.field_name = w.field_name ∧ w1.field_value = v ∧ w1.field_type = w.field_type := by
  unfold Widget.setValue at h
  cases htype : w.field_type with
  | checkbox =>
    rw [htype] at h
    by_cases hm : v ∈ w.export_values
    · rw [if_pos hm] at h
      injection h with h
      subst h
      exact ⟨rfl, rfl, rfl⟩
    · rw [if_neg hm] at h
      exact Except.noConfusion h
  | radio =>
    rw [htype] at h
    by_cases hm : v ∈ w.export_values
    · rw [if_pos hm] at h
      injection h with h
      subst h
      exact ⟨rfl, rfl, rfl⟩
    · rw [if_neg hm] at h
      exact Except.noConfusion h
  | text => rw [htype] at h; injection h with h; subst h; exact ⟨rfl, rfl, rfl⟩
  | choice => rw [htype] at h; injection h with h; subst h; exact ⟨rfl, rfl, rfl⟩
  | signature => rw [htype] at h; injection h with h; subst h; exact ⟨rfl, rfl, rfl⟩
  | button => rw [htype] at h; injection h with h; subst h; exact ⟨rfl, rfl, rfl⟩
  | unknown => rw [htype] at h; injection h with h; subst h; exact ⟨rfl, rfl, rfl⟩

lemma update_form_field_not_found {d : Doc} {n v : String}
    (h : ∀ w ∈ _iter_widgets d, (w.field_name == n) = false) :
    update_form_field d n v = (d, .ok ()) := by
  unfold update_form_field
  rw [updateFirstInPages_not_found h]

lemma update_form_field_found_ok {d : Doc} {n v : String} {i : Nat} {w w1 : Widget}
    (hidx : (_iter_widgets d).findIdx? (fun x => x.field_name == n) = some i)
    (hget : (_iter_widgets d)[i]? = some w)
    (hset : w.setValue v = .ok w1) :
    (update_form_field d n v).2 = .ok () ∧
      _iter_widgets (update_form_field d n v).1 = (_iter_widgets d).set i (Widget.update w1) := by
  have hlist := updateFirstInList_found (v := v) hidx hget
  rw [hset] at hlist
  have hflat := updateFirstInPages_flat n v d.pages
  have hflat2 : (updateFirstInPages n v d.pages).map (fun x => (x.1.flatMap Page.widgets, x.2)) =
      .ok ((_iter_widgets d).set i (Widget.update w1), true) := by
    rw [hflat]; exact hlist
  cases hp : updateFirstInPages n v d.pages with
  | error e => rw [hp] at hflat2; exact Except.noConfusion hflat2
  | ok r =>
    obtain ⟨ps1, b⟩ := r
    rw [hp] at hflat2
    have hflat3 : (Except.ok (ps1.flatMap Page.widgets, b) : Except PdfError (List Widget × Bool)) =
        .ok ((_iter_widgets d).set i (Widget.update w1), true) := hflat2
    injection hflat3 with hflat3
    injection hflat3 with h1 h2
    unfold update_form_field
    rw [hp]
    exact ⟨rfl, h1⟩

lemma update_form_field_found_err {d : Doc} {n v : String} {i : Nat} {w : Widget} {e : PdfError}
    (hidx : (_iter_widgets d).findIdx? (fun x => x.field_name == n) = some i)
    (hget : (_iter_widgets d)[i]? = some w)
    (hset : w.setValue v = .error e) :
    update_form_field d n v = (d, .error e) := by
  have hlist := updateFirstInList_found (v := v) hidx hget
  rw [hset] at hlist
  have hflat := updateFirstInPages_flat n v d.pages
  have hflat2 : (updateFirstInPages n v d.pages).map (fun x => (x.1.flatMap Page.widgets, x.2)) =
      (.error e : Except PdfError (List Widget × Bool)) := by
    rw [hflat]; exact hlist
  cases hp : updateFirstInPages n v d.pages with
  | error e2 =>
    rw [hp] at hflat2
    have hflat3 : (Except.error e2 : Except PdfError (List Widget × Bool)) = .error e := hflat2
    injection hflat3 with h1
    unfold update_form_field
    rw [hp, h1]
  | ok r =>
    obtain ⟨ps1, b⟩ := r
    rw [hp] at hflat2
    exact Except.noConfusion hflat2

lemma update_form_field_page_count (d : Doc) (n v : String) :
    page_count (update_form_field d n v).1 = page_count d := by
  unfold update_form_field
  cases hp : updateFirstInPages n v d.pages with
  | error e => rfl
  | ok r =>
    obtain ⟨ps1, b⟩ := r
    have := (updateFirstInPages_structure hp).1
    simpa [page_count] using this

lemma findIdx?_of_find? {p : Widget → Bool} {ws : List Widget} {w : Widget}
    (h : ws.find? p = some w) :
    ∃ i, ws.findIdx? p = some i ∧ ws[i]? = some w := by
  induction ws with
  | nil => simp at h
  | cons a l ih =>
    by_cases hpa : p a = true
    · rw [List.find?_cons_of_pos _ hpa] at h
      injection h with h
      subst h
      exact ⟨0, by rw [List.findIdx?_cons, if_pos hpa], by simp⟩
    · rw [List.find?_cons_of_neg _ hpa] at h
      obtain ⟨i, hi, hg⟩ := ih h
      refine ⟨i + 1, ?_, by simpa using hg⟩
      rw [List.findIdx?_cons, if_neg hpa, List.findIdx?_succ, hi]
      rfl

lemma fields_foldl (l : List Widget) (acc : List FieldRecord) :
    l.foldl
      (fun fields w =>
        if w.field_name ≠ "" then
          fields ++ [{ name := w.field_name, value := w.field_value, type := w.field_type }]
        else
          fields) acc =
      acc ++ (l.filter (fun w => w.field_name != "")).map
        (fun w => { name := w.field_name, value := w.field_value, type := w.field_type }) := by
  induction l generalizing acc with
  | nil => simp
  | cons a l ih =>
    rw [List.foldl_cons, List.filter_cons]
    by_cases ha : a.field_name = ""
    · rw [if_neg (by simp [ha]), if_neg (by simp [ha])]
      exact ih acc
    · rw [if_pos ha, if_pos (by simp [ha])]
      rw [ih]
      simp

lemma list_form_fields_eq (d : Doc) :
    list_form_fields d =
      ((_iter_widgets d).filter (fun w => w.field_name != "")).map
        (fun w => { name := w.field_name, value := w.field_value, type := w.field_type }) := by
  unfold list_form_fields
  rw [fields_foldl]
  simp

lemma find_filter_set {ws : List Widget} {i : Nat} {u : Widget} {n : String}
    (hidx : ws.findIdx? (fun x => x.field_name == n) = some i)
    (hu : u.field_name = n) (hn : n ≠ "") :
    ((ws.set i u).filter (fun x => x.field_name != "")).find? (fun x => x.field_name == n) =
      some u := by
  induction ws generalizing i with
  | nil => simp [List.findIdx?] at hidx
  | cons a l ih =>
    rw [List.findIdx?_cons] at hidx
    by_cases ha : (a.field_name == n) = true
    · rw [if_pos ha] at hidx
      injection hidx with hidx
      subst hidx
      rw [List.set_cons_zero, List.filter_cons, if_pos (by simp [hu, hn])]
      rw [List.find?_cons_of_pos _ (by simp [hu])]
    · rw [if_neg ha, List.findIdx?_succ] at hidx
      cases hj : l.findIdx? (fun x => x.field_name == n) with
      | none => rw [hj] at hidx; exact Option.noConfusion hidx
      | some j =>
        rw [hj] at hidx
        simp only [Option.map_some'] at hidx
        injection hidx with hidx
        subst hidx
        rw [List.set_cons_succ, List.filter_cons]
        by_cases hae : (a.field_name != "") = true
        · rw [if_pos hae]
          simp only [List.find?_cons]
          rw [Bool.eq_false_iff.mpr ha]
          exact ih hj
        · rw [if_neg hae]
          exact ih hj

lemma update_frame (d : Doc) (n v : String) :
    (_iter_widgets (update_form_field d n v).1).length = (_iter_widgets d).length ∧
      ∀ j : Nat, (_iter_widgets d).findIdx? (fun x => x.field_name == n) ≠ some j →
        (_iter_widgets (update_form_field d n v).1)[j]? = (_iter_widgets d)[j]? := by
  cases hidx : (_iter_widgets d).findIdx? (fun x => x.field_name == n) with
  | none =>
    have hnone : ∀ w ∈ _iter_widgets d, (w.field_name == n) = false := by
      intro w hw
      exact List.findIdx?_eq_none_iff.mp hidx w hw
    rw [update_form_field_not_found hnone]
    exact ⟨rfl, fun j _ => rfl⟩
  | some i =>
    have hlt : i < (_iter_widgets d).length :=
      (List.findIdx?_eq_some_iff_findIdx_eq.mp hidx).1
    have hget : (_iter_widgets d)[i]? = some (_iter_widgets d)[i] :=
      List.getElem?_eq_getElem hlt
    cases hs : ((_iter_widgets d)[i]).setValue v with
    | error e =>
      rw [update_form_field_found_err hidx hget hs]
      exact ⟨rfl, fun j _ => rfl⟩
    | ok w1 =>
      obtain ⟨-, hws⟩ := update_form_field_found_ok hidx hget hs
      rw [hws]
      refine ⟨List.length_set _ _ _, fun j hj => ?_⟩
      have hne : i ≠ j := fun hij => hj (congrArg some hij)
      exact List.getElem?_set_ne hne

lemma insert_text_page_count (d : Doc) (pidx : Int) (x y : Rat) (t : String) (fsz : Rat) :
    page_count (insert_text d pidx x y t fsz).1 = page_count d := by
  unfold insert_text page_count
  by_cases h0 : 0 ≤ pidx
  · rw [if_pos h0]
    cases hg : d.pages[pidx.toNat]? with
    | some p => simp [List.length_set]
    | none => rfl
  · rw [if_neg h0]

/-! ### Concrete example documents -/

/-- A hidden widget named a. -/
def wHiddenA : Widget :=
  { field_name := "a", field_value := "old1", field_type := .text, export_values := [],
    hidden := true, appearance := "" }

/-- A visible widget named a. -/
def wVisibleA : Widget :=
  { field_name := "a", field_value := "old2", field_type := .text, export_values := [],
    hidden := false, appearance := "" }

/-- One page holding a hidden widget named a before a visible widget named
a. -/
def docDupA : Doc := { pages := [{ widgets := [wHiddenA, wVisibleA], content := [] }] }

/-- A widget with the empty field name. -/
def wUnnamed : Widget :=
  { field_name := "", field_value := "old", field_type := .text, export_values := [],
    hidden := false, appearance := "" }

/-- One page holding only the un-named widget. -/
def docUnnamed : Doc := { pages := [{ widgets := [wUnnamed], content := [] }] }

/-- A plain visible text widget named a. -/
def wPlain : Widget :=
  { field_name := "a", field_value := "x", field_type := .text, export_values := [],
    hidden := false, appearance := "" }

/-- One page holding the plain widget. -/
def docPlain : Doc := { pages := [{ widgets := [wPlain], content := [] }] }

/-- One page with no widgets. -/
def docEmpty : Doc := { pages := [{ widgets := [], content := [] }] }

/-- A checkbox widget with export values Off and Yes. -/
def wCheck : Widget :=
  { field_name := "c", field_value := "Off", field_type := .checkbox,
    export_values := ["Off", "Yes"], hidden := false, appearance := "" }

/-- One page holding the checkbox widget. -/
def docCheck : Doc := { pages := [{ widgets := [wCheck], content := [] }] }

/-! ### Claim theorems -/

/-- Claim C1, counterexample: in docDupA the first widget named a is hidden
and the second is visible, so the lookup the claim describes (named,
non-hidden widgets only) designates index 1; but update_form_field updates
the hidden widget at index 0 and leaves the widget at index 1 with its old
value, refuting the claim at this concrete input. -/
theorem C1_counterexample :
    specFirstMatch docDupA "a" = some 1 ∧
    (_iter_widgets (update_form_field docDupA "a" "new").1).map Widget.field_value =
      ["new", "old2"] := by
  exact ⟨rfl, rfl⟩

/-- Claim C1 (amended): update_form_field updates exactly the first widget
in document order whose field name equals the given name — hidden or
un-named widgets included in the lookup, first match wins on duplicates —
setting its value and regenerating its appearance, provided the value is
admissible for the field type. -/
theorem C1_update_first_match (d : Doc) (n v : String) (i : Nat) (w w1 : Widget)
    (hidx : (_iter_widgets d).findIdx? (fun x => x.field_name == n) = some i)
    (hget : (_iter_widgets d)[i]? = some w)
    (hset : w.setValue v = .ok w1) :
    (update_form_field d n v).2 = .ok () ∧
      _iter_widgets (update_form_field d n v).1 =
        (_iter_widgets d).set i (Widget.update w1) ∧
      w1.field_value = v ∧
      (Widget.update w1).appearance = renderAppearance v := by
  obtain ⟨hret, hws⟩ := update_form_field_found_ok hidx hget hset
  obtain ⟨hname, hval, htype⟩ := setValue_fields hset
  exact ⟨hret, hws, hval, by simp [Widget.update, hval]⟩

/-- Claim C1 witness: the amended statement applied to docPlain. -/
theorem C1_update_first_match_witness :
    (update_form_field docPlain "a" "y").2 = .ok () ∧
      _iter_widgets (update_form_field docPlain "a" "y").1 =
        (_iter_widgets docPlain).set 0 (Widget.update { wPlain with field_value := "y" }) ∧
      ({ wPlain with field_value := "y" } : Widget).field_value = "y" ∧
      (Widget.update { wPlain with field_value := "y" }).appearance = renderAppearance "y" :=
  C1_update_first_match docPlain "a" "y" 0 wPlain { wPlain with field_value := "y" }
    (by rfl) (by rfl) (by rfl)

/-- Claim C2, counterexample: docUnnamed contains a widget whose field name
equals the empty string; update_form_field with that name updates it (its
stored value becomes x), yet list_form_fields of the result is empty, so no
entry for the name carries the new value.  On docCheck an inadmissible
checkbox value leaves the listed value unchanged. -/
theorem C2_counterexample :
    wUnnamed.field_name = "" ∧
    (_iter_widgets (update_form_field docUnnamed "" "x").1).map Widget.field_value = ["x"] ∧
    list_form_fields (update_form_field docUnnamed "" "x").1 = [] ∧
    (list_form_fields (update_form_field docCheck "c" "banana").1).map FieldRecord.value =
      ["Off"] := by
  exact ⟨rfl, rfl, rfl, rfl⟩

/-- Claim C2 (amended): for a non-empty name carried by some widget of the
document, when update_form_field(n, v) completes without an exception, the
first entry for n in the subsequent list_form_fields has value v. -/
theorem C2_update_reflected (d : Doc) (n v : String) (w : Widget)
    (hfind : (_iter_widgets d).find? (fun x => x.field_name == n) = some w)
    (hn : n ≠ "")
    (hok : (update_form_field d n v).2 = .ok ()) :
    (list_form_fields (update_form_field d n v).1).find? (fun r => r.name == n) =
      some { name := n, value := v, type := w.field_type } := by
  obtain ⟨i, hidx, hget⟩ := findIdx?_of_find? hfind
  have hwname : w.field_name = n := by simpa using List.find?_some hfind
  cases hs : w.setValue v with
  | error e =>
    exfalso
    have herr := update_form_field_found_err (v := v) hidx hget hs
    rw [herr] at hok
    exact Except.noConfusion hok
  | ok w1 =>
    obtain ⟨-, hws⟩ := update_form_field_found_ok hidx hget hs
    obtain ⟨hname, hval, htype⟩ := setValue_fields hs
    rw [list_form_fields_eq, hws]
    have hu : (Widget.update w1).field_name = n := by
      simpa [Widget.update] using hname.trans hwname
    have hfs := find_filter_set (u := Widget.update w1) hidx hu hn
    rw [List.find?_map]
    have hcomp : ((fun r : FieldRecord => r.name == n) ∘
        (fun x : Widget =>
          ({ name := x.field_name, value := x.field_value, type := x.field_type } : FieldRecord))) =
        (fun x : Widget => x.field_name == n) := rfl
    rw [hcomp, hfs]
    simp [Widget.update, hval, htype, hname, hwname]

/-- Claim C2 witness: the amended statement applied to docPlain. -/
theorem C2_update_reflected_witness :
    (list_form_fields (update_form_field docPlain "a" "z").1).find? (fun r => r.name == "a") =
      some { name := "a", value := "z", type := wPlain.field_type } :=
  C2_update_reflected docPlain "a" "z" wPlain (by rfl) (by decide) (by rfl)

/-- Claim C3: update_form_field returns the Python None (modelled .ok ())
both on docPlain, where a field named a exists and is updated, and on
docEmpty, where no field matches; the return value is identical in the two
runs and therefore carries no success flag a caller could check. -/
theorem C3_no_success_flag :
    (update_form_field docPlain "a" "x").2 = (update_form_field docEmpty "a" "x").2 ∧
    hasFieldNamed docPlain "a" = true ∧
    hasFieldNamed docEmpty "a" = false := by
  exact ⟨rfl, rfl, rfl⟩

/-- Claim C4: render_page at index -1 and at index page_count both fail with
a bounds error, for every document and zoom. -/
theorem C4_render_page_bounds (d : Doc) (zoom : Rat) :
    render_page d (-1) zoom = .error .boundsError ∧
    render_page d (Int.ofNat (page_count d)) zoom = .error .boundsError := by
  constructor
  · rfl
  · unfold render_page load_page
    rw [if_pos (show (0 : Int) ≤ Int.ofNat (page_count d) from Int.ofNat_nonneg _)]
    have htn : (Int.ofNat (page_count d)).toNat = d.pages.length := by
      simp [page_count]
    rw [htn, List.getElem?_eq_none (le_refl _)]

/-- Claim C5: updating a checkbox or radio field with a value outside its
export-value set fails with ValidationError and leaves the document, hence
the prior value, unchanged. -/
theorem C5_checkbox_validation (d : Doc) (n v : String) (w : Widget)
    (hfind : (_iter_widgets d).find? (fun x => x.field_name == n) = some w)
    (htype : w.field_type = FieldType.checkbox ∨ w.field_type = FieldType.radio)
    (hv : v ∉ w.export_values) :
    update_form_field d n v = (d, .error .validationError) := by
  obtain ⟨i, hidx, hget⟩ := findIdx?_of_find? hfind
  have hset : w.setValue v = .error .validationError := by
    unfold Widget.setValue
    rcases htype with h | h <;> rw [h] <;> rw [if_neg hv]
  exact update_form_field_found_err hidx hget hset

/-- Claim C5 witness: the theorem applied to the checkbox document with the
inadmissible value banana. -/
theorem C5_checkbox_validation_witness :
    update_form_field docCheck "c" "banana" = (docCheck, .error .validationError) :=
  C5_checkbox_validation docCheck "c" "banana" wCheck (by rfl) (Or.inl (by rfl)) (by decide)

/-- Claim C6: when no widget of the document carries the given field name,
update_form_field is a no-op returning None: the entire document state is
unchanged. -/
theorem C6_no_match_noop (d : Doc) (n v : String)
    (h : ∀ w ∈ _iter_widgets d, w.field_name ≠ n) :
    update_form_field d n v = (d, .ok ()) := by
  apply update_form_field_not_found
  intro w hw
  exact beq_eq_false_iff_ne.mpr (h w hw)

/-- Claim C6 witness: the theorem applied to docPlain with a name no widget
carries. -/
theorem C6_no_match_noop_witness :
    update_form_field docPlain "zzz" "v" = (docPlain, .ok ()) :=
  C6_no_match_noop docPlain "zzz" "v" (by decide)

/-- Claim C7: list_form_fields returns exactly the widgets of every page, in
document order, that carry a non-empty field name, each as a
name/value/type record; in particular it is the empty list when no widget
has a non-empty name, and it never errors (total function). -/
theorem C7_list_fields_spec (d : Doc) :
    list_form_fields d =
      ((_iter_widgets d).filter (fun w => w.field_name != "")).map
        (fun w => { name := w.field_name, value := w.field_value, type := w.field_type }) :=
  list_form_fields_eq d

/-- Claim C8: save either succeeds, leaving the target path holding exactly
the saved document, or fails with IOError leaving the filesystem — hence
every file — exactly as it was; no partially written file is possible. -/
theorem C8_save_atomic (wOk : Bool) (fs : FileSys) (d : Doc) (path : String) (inc : Bool) :
    save wOk fs d path inc = (fun q => if q = path then some d else fs q, .ok ()) ∨
    save wOk fs d path inc = (fs, .error .ioError) := by
  cases wOk with
  | true => left; rfl
  | false => right; rfl

/-- Claim C9: update_form_field mutates at most one widget: the widget list
keeps its length and every position other than the first name match keeps
its exact widget, including later duplicates of the name. -/
theorem C9_frame (d : Doc) (n v : String) :
    (_iter_widgets (update_form_field d n v).1).length = (_iter_widgets d).length ∧
      ∀ j : Nat, (_iter_widgets d).findIdx? (fun x => x.field_name == n) ≠ some j →
        (_iter_widgets (update_form_field d n v).1)[j]? = (_iter_widgets d)[j]? :=
  update_frame d n v

/-- Claim C9 witness: in docDupA the update for name a touches index 0, and
index 1 is proved unchanged by the frame theorem. -/
theorem C9_frame_witness :
    (_iter_widgets (update_form_field docDupA "a" "new").1)[1]? =
      (_iter_widgets docDupA)[1]? :=
  (C9_frame docDupA "a" "new").2 1 (by decide)

/-- Claim C10: page_count is invariant under update_form_field and under
insert_text, for all arguments. -/
theorem C10_page_count_invariant (d : Doc) (n v : String) (pidx : Int) (x y : Rat)
    (t : String) (fsz : Rat) :
    page_count (update_form_field d n v).1 = page_count d ∧
    page_count (insert_text d pidx x y t fsz).1 = page_count d :=
  ⟨update_form_field_page_count d n v, insert_text_page_count d pidx x y t fsz⟩

end PlexiPDF
